import Mathlib

/-!
# Patient / doctor access chaincode

A shallow embedding of the two chaincode deployments of the repository:

* `src/myChaincode.go` (namespace `MyChaincode`): writes are gated by a fixed
  allow-list of usernames, reads of a patient key filter the stored grants by
  the caller's username;
* `src/start/chaincode_start.go` (namespace `Start`): writes are gated by the
  caller's role, reads return the stored bytes.

Conventions of the embedding.

* A Go `string` and a Go `[]byte` are both plain byte sequences and the
  conversions `[]byte(s)` / `string(b)` copy the content unchanged, so both are
  embedded as `String`; a `nil` byte slice is the empty one.
* A Go `error` is embedded as its message.
* The handlers return `([]byte, error)`; the embedding adds the third outcome
  a Go function has, a run-time panic.
* `fmt.Println` logging is not embedded.
* The ledger runtime (`shim.ChaincodeStubInterface`) and `encoding/json` are
  not part of the repository: the stub is a record holding the world state,
  the faults the runtime may report and the caller's certificate attributes;
  the JSON codec is a parameter.
-/

/-- The Go struct `AccessRecord`: one grant of a patient to a doctor. -/
structure AccessRecord where
  DoctorID : String
  TestID : String
  StartDate : String
  EndDate : String
deriving DecidableEq, Repr

/-- Outcome of a handler: `ok b` is the Go return `(b, nil)`, `err m` is
`(nil, errors.New(m))`, `panicked` is a Go run-time panic. -/
inductive Result where
  | ok (bytes : String)
  | err (msg : String)
  | panicked
deriving DecidableEq, Repr

/-- The part of `shim.ChaincodeStubInterface` the handlers use, for one
invocation: the world state, the faults the runtime reports on a get or a put
(by key, with the error message) and the caller's certificate attributes. -/
structure Stub where
  state : String → Option String
  getFault : String → Option String
  putFault : String → String → Option String
  attrs : String → Except String String

/-- The runtime's `GetState(key)`: the stored bytes (`nil` for an absent key), or the
fault. -/
def Stub.GetState (stub : Stub) (key : String) : Except String String :=
  match stub.getFault key with
  | some e => .error e
  | none => .ok ((stub.state key).getD "")

/-- The runtime's `PutState(key, value)`: on success the world state maps `key` to
`value` and is otherwise unchanged; on a fault nothing is stored. -/
def Stub.PutState (stub : Stub) (key value : String) : Except String Stub :=
  match stub.putFault key value with
  | some e => .error e
  | none => .ok { stub with state := fun k => if k = key then some value else stub.state k }

/-- The runtime's `ReadCertAttribute(attributeName)`. -/
def Stub.ReadCertAttribute (stub : Stub) (attributeName : String) : Except String String :=
  stub.attrs attributeName

/-- The two `encoding/json` entry points the read path calls, at the type
`[]AccessRecord`: `Unmarshal` fails with `none`, `Marshal` likewise. -/
structure JsonCodec where
  Unmarshal : String → Option (List AccessRecord)
  Marshal : List AccessRecord → Option String

/-- Go's indexed assignment `xs[i] = x` on a slice: a run-time panic (`none`) when
`i` is not below the length. -/
def assignIndex (xs : List AccessRecord) (i : Nat) (x : AccessRecord) :
    Option (List AccessRecord) :=
  if i < xs.length then some (xs.set i x) else none

namespace MyChaincode

/-- The function `GetCertAttribute` of `src/myChaincode.go`: the pair `(string, error)`. -/
def GetCertAttribute (stub : Stub) (attributeName : String) : String × Option String :=
  match stub.ReadCertAttribute attributeName with
  | .error e => ("", some ("Couldn't get attribute " ++ attributeName ++ ". Error: " ++ e))
  | .ok attr => (attr, none)

/-- The method `Init` of `src/myChaincode.go`. -/
def Init (stub : Stub) (_function : String) (args : List String) : Result × Stub :=
  match args with
  | [arg0] =>
    match stub.PutState "patientDoctorApp" arg0 with
    | .error e => (.err e, stub)
    | .ok stub1 => (.ok "", stub1)
  | _ => (.err "Incorrect number of arguments. Expecting 1", stub)

/-- The method `write` of `src/myChaincode.go`. -/
def write (stub : Stub) (args : List String) : Result × Stub :=
  match args with
  | [key, value] =>
    let username := (GetCertAttribute stub "username").1
    if username = "user_type1_0" ∨ username = "user_type1_1" then
      match stub.PutState key value with
      | .error e => (.err e, stub)
      | .ok stub1 => (.ok "", stub1)
    else
      (.err (username ++ " does not have access to create a patient asset"), stub)
  | _ => (.err "Incorrect number of arguments. Expecting 2. name of the key and value to set", stub)

/-- The method `Invoke` of `src/myChaincode.go`. -/
def Invoke (stub : Stub) (function : String) (args : List String) : Result × Stub :=
  if function = "init" then Init stub "init" args
  else if function = "write" then write stub args
  else (.err ("Received unknown function invocation: " ++ function), stub)

/-- The `for ... range accessRecords` loop of `read`: `acc` is `newAccessRecordList`,
`index` the variable of that name (never changed by the loop); `none` is a panic
of the indexed assignment. -/
def rangeLoop (doctorUsername : String) (index : Nat) :
    List AccessRecord → List AccessRecord → Option (List AccessRecord)
  | [], acc => some acc
  | accessRecord :: rest, acc =>
    if doctorUsername = accessRecord.DoctorID then
      match assignIndex acc index accessRecord with
      | none => none
      | some acc1 => rangeLoop doctorUsername index rest acc1
    else rangeLoop doctorUsername index rest acc

/-- The method `read` of `src/myChaincode.go`. -/
def read (json : JsonCodec) (stub : Stub) (args : List String) : Result × Stub :=
  match args with
  | [key] =>
    match stub.GetState key with
    | .error _ => (.err ("\x7b\"Error\":\"Failed to get state for " ++ key ++ "\"\x7d"), stub)
    | .ok valAsbytes =>
      if key ≠ "patientDoctorApp" then
        let doctorUsername := (GetCertAttribute stub "username").1
        match json.Unmarshal valAsbytes with
        | none =>
          (.err "\x7b\"Error\":\"Failed to convert byteArray to accessRecords list.\"\x7d", stub)
        | some accessRecords =>
          match rangeLoop doctorUsername 0 accessRecords [] with
          | none => (.panicked, stub)
          | some newAccessRecordList =>
            if newAccessRecordList.length < 1 then
              (.err ("\x7b\"Error\":\"You dont have access to any EMR of Patient " ++ key
                ++ "\"\x7d"), stub)
            else
              match json.Marshal newAccessRecordList with
              | none =>
                (.err "\x7b\"Error\":\"Failed to convert newAccessRecords to byteArray.\"\x7d",
                  stub)
              | some newAccessRecordsAsbytes => (.ok newAccessRecordsAsbytes, stub)
      else (.ok valAsbytes, stub)
  | _ => (.err "Incorrect number of arguments. Expecting patientID", stub)

/-- The method `Query` of `src/myChaincode.go`. -/
def Query (json : JsonCodec) (stub : Stub) (function : String) (args : List String) :
    Result × Stub :=
  if function = "read" then read json stub args
  else (.err ("Received unknown function query: " ++ function), stub)

end MyChaincode

namespace Start

/-- The function `GetCertAttribute` of `src/start/chaincode_start.go`. -/
def GetCertAttribute (stub : Stub) (attributeName : String) : String × Option String :=
  match stub.ReadCertAttribute attributeName with
  | .error e => ("", some ("Couldn't get attribute " ++ attributeName ++ ". Error: " ++ e))
  | .ok attr => (attr, none)

/-- The method `Init` of `src/start/chaincode_start.go`. -/
def Init (stub : Stub) (_function : String) (args : List String) : Result × Stub :=
  match args with
  | [arg0] =>
    match stub.PutState "hello_world" arg0 with
    | .error e => (.err e, stub)
    | .ok stub1 => (.ok "", stub1)
  | _ => (.err "Incorrect number of arguments. Expecting 1", stub)

/-- The method `write` of `src/start/chaincode_start.go`. -/
def write (stub : Stub) (args : List String) : Result × Stub :=
  match args with
  | [key, value] =>
    let username := (GetCertAttribute stub "username").1
    let role := (GetCertAttribute stub "role").1
    if role = "Patient" then
      match stub.PutState key value with
      | .error e => (.err e, stub)
      | .ok stub1 => (.ok "", stub1)
    else
      (.err (username ++ " with role " ++ role
        ++ " does not have access to create a patient asset"), stub)
  | _ => (.err "Incorrect number of arguments. Expecting 2. name of the key and value to set", stub)

/-- The method `Invoke` of `src/start/chaincode_start.go`. -/
def Invoke (stub : Stub) (function : String) (args : List String) : Result × Stub :=
  if function = "init" then Init stub "init" args
  else if function = "write" then write stub args
  else (.err ("Received unknown function invocation: " ++ function), stub)

/-- The method `read` of `src/start/chaincode_start.go`. -/
def read (stub : Stub) (args : List String) : Result × Stub :=
  match args with
  | [key] =>
    match stub.GetState key with
    | .error _ => (.err ("\x7b\"Error\":\"Failed to get state for " ++ key ++ "\"\x7d"), stub)
    | .ok valAsbytes => (.ok valAsbytes, stub)
  | _ => (.err "Incorrect number of arguments. Expecting name of the key to query", stub)

/-- The method `Query` of `src/start/chaincode_start.go`. -/
def Query (stub : Stub) (function : String) (args : List String) : Result × Stub :=
  if function = "read" then read stub args
  else (.err ("Received unknown function query: " ++ function), stub)

end Start

/-! ## Concrete inputs of the scenarios -/

/-- The grant of the scenarios: doctor `doc1`, test `t1`. -/
def grantDoc1 : AccessRecord := ⟨"doc1", "t1", "2020-01-01", "2020-02-01"⟩

/-- The JSON text of the one-element grant list `[grantDoc1]`. -/
def grantDoc1Json : String :=
  "[\x7b\"doctorId\":\"doc1\",\"testId\":\"t1\",\"startDate\":\"2020-01-01\",\"endDate\":\"2020-02-01\"\x7d]"

/-- A codec table for the scenarios: it decodes the JSON text of `[grantDoc1]` and of
the empty list, rejects every other input, and encodes `[grantDoc1]`. On these
entries it agrees with `encoding/json`. -/
def scenarioCodec : JsonCodec where
  Unmarshal := fun b =>
    if b = grantDoc1Json then some [grantDoc1] else if b = "[]" then some [] else none
  Marshal := fun l => if l = [grantDoc1] then some grantDoc1Json else none

/-- Certificate of a caller with the given username and role. -/
def certOf (username role : String) : String → Except String String :=
  fun n =>
    if n = "username" then .ok username
    else if n = "role" then .ok role
    else .error "attribute not found"

/-- Certificate on which every attribute lookup fails. -/
def noCert : String → Except String String := fun _ => .error "no certificate"

/-- The world state with no key. -/
def emptyState : String → Option String := fun _ => none

/-- A stub over the given world state and certificate on which the runtime reports no
fault. -/
def stubOf (state : String → Option String) (attrs : String → Except String String) : Stub :=
  { state := state, getFault := fun _ => none, putFault := fun _ _ => none, attrs := attrs }

/-- The world state holding `config` under the system key of `src/myChaincode.go`. -/
def configState : String → Option String :=
  fun k => if k = "patientDoctorApp" then some "config" else none

/-- The world state holding the scenario grant list under `patient42`. -/
def patient42State : String → Option String :=
  fun k => if k = "patient42" then some grantDoc1Json else none

/-- The world state holding the empty grant list under `patient42`. -/
def noGrantsState : String → Option String :=
  fun k => if k = "patient42" then some "[]" else none

/-- What claim C1 asks of the result of `read([k])` for a caller whose username is
`I`: a success result is the encoding of a list of grants, each of them addressed to
`I` and present in the grant list decoded from the bytes stored under `k`. Nothing is
asked of an error or of a panic. -/
def OwnGrantsOnly (json : JsonCodec) (stub : Stub) (k I : String) : Result → Prop
  | .ok b => ∃ raw G L, stub.GetState k = .ok raw ∧ json.Unmarshal raw = some G ∧
      json.Marshal L = some b ∧ ∀ g ∈ L, g.DoctorID = I ∧ g ∈ G
  | _ => True

/-- One `Invoke` transaction sent to the allow-list deployment: the caller's
certificate, the faults the runtime reports during it, the function name and the
arguments. -/
structure Call where
  attrs : String → Except String String
  getFault : String → Option String
  putFault : String → String → Option String
  function : String
  args : List String

/-- The world state after `MyChaincode.Invoke` has run the call on `state`. -/
def applyCall (state : String → Option String) (c : Call) : String → Option String :=
  (MyChaincode.Invoke
    { state := state, getFault := c.getFault, putFault := c.putFault, attrs := c.attrs }
    c.function c.args).2.state

/-- The world state after the calls have run in order. -/
def runCalls (state : String → Option String) (calls : List Call) : String → Option String :=
  calls.foldl applyCall state

/-- The stored-shape invariant of claim C10: the value under every key other than the
system key decodes to a grant list. -/
def StoredShape (json : JsonCodec) (state : String → Option String) : Prop :=
  ∀ k, k ≠ "patientDoctorApp" → ∀ b, state k = some b → (json.Unmarshal b).isSome = true

/-- The caller of the call is on the allow-list of `MyChaincode.write`. -/
def Call.allowed (c : Call) : Bool :=
  match c.attrs "username" with
  | .ok u => u == "user_type1_0" || u == "user_type1_1"
  | .error _ => false

/-- The call is not a `write` by an allow-listed caller of an undecodable value under a
key other than the system key. -/
def Call.decodableWrite (json : JsonCodec) (c : Call) : Bool :=
  match c.args with
  | [key, value] =>
    !(c.function == "write") || !c.allowed || key == "patientDoctorApp"
      || (json.Unmarshal value).isSome
  | _ => true

/-- The certificate in which every attribute whose lookup fails is present and empty. -/
def blankCert (attrs : String → Except String String) : String → Except String String :=
  fun n =>
    match attrs n with
    | .ok v => .ok v
    | .error _ => .ok ""

/-- An allow-listed caller's `write`, under `patient42`, of a lone opening brace, which
is no JSON value. -/
def truncatedWrite : Call :=
  { attrs := certOf "user_type1_0" "Patient", getFault := fun _ => none,
    putFault := fun _ _ => none, function := "write", args := ["patient42", "\x7b"] }

/-- An allow-listed caller's `write` of the scenario grant list under `patient42`. -/
def scenarioWrite : Call :=
  { attrs := certOf "user_type1_0" "Patient", getFault := fun _ => none,
    putFault := fun _ _ => none, function := "write", args := ["patient42", grantDoc1Json] }

/-- A transaction sent to the allow-list deployment: an `Invoke` or a `Query`. -/
inductive Tx where
  | invoke (c : Call)
  | query (c : Call)

/-- The world state after the transaction has run on `state`: through
`MyChaincode.Invoke` or through `MyChaincode.Query`. -/
def applyTx (json : JsonCodec) (state : String → Option String) : Tx → String → Option String
  | .invoke c => applyCall state c
  | .query c =>
    (MyChaincode.Query json
      { state := state, getFault := c.getFault, putFault := c.putFault, attrs := c.attrs }
      c.function c.args).2.state

/-- The world state after the transactions have run in order. -/
def runTxs (json : JsonCodec) (state : String → Option String) (txs : List Tx) :
    String → Option String :=
  txs.foldl (applyTx json) state

/-- The value the call puts under the system key, if it puts one there: the argument of
an `init` with one argument, or the value of a `write` under the system key by an
allow-listed caller, the runtime's put not failing. -/
def Call.systemKeyWrite (c : Call) : Option String :=
  if c.function = "init" then
    match c.args with
    | [x] => if (c.putFault "patientDoctorApp" x).isNone then some x else none
    | _ => none
  else if c.function = "write" then
    match c.args with
    | [key, x] =>
      if key = "patientDoctorApp" ∧ c.allowed = true ∧ (c.putFault key x).isNone then some x
      else none
    | _ => none
  else none

/-- The value the transaction puts under the system key, if it puts one there; a query
puts none. -/
def Tx.systemKeyWrite : Tx → Option String
  | .invoke c => c.systemKeyWrite
  | .query _ => none

/-- A call by the given caller on which the runtime reports no fault. -/
def callBy (attrs : String → Except String String) (function : String) (args : List String) :
    Call :=
  { attrs := attrs, getFault := fun _ => none, putFault := fun _ _ => none,
    function := function, args := args }

/-- A stub over the scenario store, for the caller `doc1`, on which every get of the
runtime fails with the given message. -/
def getFailingStub (msg : String) : Stub :=
  { state := patient42State, getFault := fun _ => some msg, putFault := fun _ _ => none,
    attrs := certOf "doc1" "Doctor" }

/-! ## The copy loop of `MyChaincode.read` -/

namespace MyChaincode

theorem assignIndex_mem {xs ys : List AccessRecord} {i : Nat} {x g : AccessRecord}
    (h : assignIndex xs i x = some ys) (hg : g ∈ ys) : g ∈ xs ∨ g = x := by
  unfold assignIndex at h
  split at h
  · cases h
    exact List.mem_or_eq_of_mem_set hg
  · cases h

theorem assignIndex_nil (i : Nat) (x : AccessRecord) : assignIndex [] i x = none := by
  simp [assignIndex]

/-- Whatever the index and the initial content of the result list: a list the loop
returns holds, besides that initial content, only grants of the input addressed to
`doctorUsername`. -/
theorem rangeLoop_mem (u : String) (i : Nat) :
    ∀ (recs acc L : List AccessRecord), rangeLoop u i recs acc = some L →
      ∀ g ∈ L, g ∈ acc ∨ (g ∈ recs ∧ g.DoctorID = u) := by
  intro recs
  induction recs with
  | nil =>
    intro acc L h g hg
    simp only [rangeLoop, Option.some.injEq] at h
    subst h
    exact Or.inl hg
  | cons r rest ih =>
    intro acc L h g hg
    simp only [rangeLoop] at h
    split at h
    · rename_i hu
      split at h
      · cases h
      · rename_i acc1 hacc
        rcases ih acc1 L h g hg with h1 | ⟨h1, h2⟩
        · rcases assignIndex_mem hacc h1 with h3 | h3
          · exact Or.inl h3
          · subst h3
            exact Or.inr ⟨List.mem_cons_self _ _, hu.symm⟩
        · exact Or.inr ⟨List.mem_cons_of_mem _ h1, h2⟩
    · rcases ih acc L h g hg with h1 | ⟨h1, h2⟩
      · exact Or.inl h1
      · exact Or.inr ⟨List.mem_cons_of_mem _ h1, h2⟩

/-- With `index = 0` and the result list empty, as `read` runs the loop: no grant of the
input matches, and the loop ends with the result list still empty. -/
theorem rangeLoop_no_match (u : String) :
    ∀ recs : List AccessRecord, (∀ r ∈ recs, r.DoctorID ≠ u) → rangeLoop u 0 recs [] = some [] := by
  intro recs
  induction recs with
  | nil => intro _; rfl
  | cons r rest ih =>
    intro h
    have hr : ¬ u = r.DoctorID := fun e => h r (List.mem_cons_self _ _) e.symm
    simp only [rangeLoop, hr, if_false]
    exact ih (fun x hx => h x (List.mem_cons_of_mem _ hx))

/-- With `index = 0` and the result list empty: a grant of the input matches, and the
indexed assignment panics. -/
theorem rangeLoop_match (u : String) :
    ∀ recs : List AccessRecord, (∃ r ∈ recs, r.DoctorID = u) → rangeLoop u 0 recs [] = none := by
  intro recs
  induction recs with
  | nil => rintro ⟨r, hr, _⟩; cases hr
  | cons r rest ih =>
    rintro ⟨x, hx, hxu⟩
    by_cases hr : u = r.DoctorID
    · simp [rangeLoop, hr, assignIndex_nil]
    · simp only [rangeLoop, hr, if_false]
      rcases List.mem_cons.mp hx with h1 | h1
      · exact absurd (h1 ▸ hxu).symm hr
      · exact ih ⟨x, h1, hxu⟩

/-- The loop of `read` never ends with a non-empty result list. -/
theorem rangeLoop_some (u : String) (recs L : List AccessRecord)
    (h : rangeLoop u 0 recs [] = some L) : L = [] := by
  by_cases hm : ∃ r ∈ recs, r.DoctorID = u
  · rw [rangeLoop_match u recs hm] at h
    cases h
  · have hn : ∀ r ∈ recs, r.DoctorID ≠ u := fun r hr e => hm ⟨r, hr, e⟩
    rw [rangeLoop_no_match u recs hn] at h
    cases h
    rfl

end MyChaincode

/-! ## The read path of `src/myChaincode.go` on a patient key -/

/-- On a key other than the system key whose stored bytes decode to a list holding a
grant for the caller's username, `read` panics. -/
theorem MyChaincode.read_match_panics (json : JsonCodec) (stub : Stub) (k raw : String)
    (G : List AccessRecord) (hk : k ≠ "patientDoctorApp") (hget : stub.GetState k = .ok raw)
    (hdec : json.Unmarshal raw = some G)
    (hm : ∃ g ∈ G, g.DoctorID = (MyChaincode.GetCertAttribute stub "username").1) :
    MyChaincode.read json stub [k] = (.panicked, stub) := by
  simp [MyChaincode.read, hk, hget, hdec, MyChaincode.rangeLoop_match _ G hm]

/-- On a key other than the system key whose stored bytes decode to a list holding no
grant for the caller's username, `read` returns the access-denied error. -/
theorem MyChaincode.read_no_match_denied (json : JsonCodec) (stub : Stub) (k raw : String)
    (G : List AccessRecord) (hk : k ≠ "patientDoctorApp") (hget : stub.GetState k = .ok raw)
    (hdec : json.Unmarshal raw = some G)
    (hno : ∀ g ∈ G, g.DoctorID ≠ (MyChaincode.GetCertAttribute stub "username").1) :
    MyChaincode.read json stub [k] =
      (.err ("\x7b\"Error\":\"You dont have access to any EMR of Patient " ++ k ++ "\"\x7d"),
        stub) := by
  simp [MyChaincode.read, hk, hget, hdec, MyChaincode.rangeLoop_no_match _ G hno]

/-! ## The claims -/

/-- A success result of `read` on a key other than the system key is the encoding of
grants of the stored list addressed to the caller. The proof goes through the copy loop
for any index and any initial result list (`rangeLoop_mem`). -/
theorem MyChaincode.read_success_own_grants (json : JsonCodec) (stub : Stub) (k I : String)
    (hk : k ≠ "patientDoctorApp") (hI : stub.ReadCertAttribute "username" = .ok I) :
    OwnGrantsOnly json stub k I (MyChaincode.read json stub [k]).1 := by
  have hu : (MyChaincode.GetCertAttribute stub "username").1 = I := by
    simp [MyChaincode.GetCertAttribute, hI]
  simp only [MyChaincode.read, hu, hk, ne_eq, not_false_eq_true, if_true]
  cases hget : stub.GetState k with
  | error e => exact trivial
  | ok raw =>
    simp only
    cases hdec : json.Unmarshal raw with
    | none => exact trivial
    | some G =>
      simp only
      cases hloop : MyChaincode.rangeLoop I 0 G [] with
      | none => exact trivial
      | some L =>
        simp only
        split
        · exact trivial
        · cases hm : json.Marshal L with
          | none => exact trivial
          | some b =>
            refine ⟨raw, G, L, hget, hdec, hm, fun g hg => ?_⟩
            rcases MyChaincode.rangeLoop_mem I 0 G [] L hloop g hg with h1 | ⟨h1, h2⟩
            · cases h1
            · exact ⟨h2, h1⟩

/-- A list holds a grant addressed to `I` exactly when its sublist of the grants
addressed to `I` is not empty. -/
theorem exists_grant_iff_filter (G : List AccessRecord) (I : String) :
    (∃ g ∈ G, g.DoctorID = I) ↔ G.filter (fun g => decide (g.DoctorID = I)) ≠ [] := by
  rw [Ne, List.filter_eq_nil_iff]
  constructor
  · rintro ⟨g, hg, hgI⟩ h
    exact h g hg (by simp [hgI])
  · intro h
    by_contra hn
    exact h (fun g hg hp => hn ⟨g, hg, by simpa using hp⟩)

/-- The result of `read` on a key other than the system key depends on the stored grant
list only through the grants addressed to the caller: two stores whose lists have the
same sublist of grants addressed to `I` give the caller `I` the same result. -/
theorem MyChaincode.read_same_on_own_grants (json : JsonCodec) (stub1 stub2 : Stub)
    (k I raw1 raw2 : String) (G1 G2 : List AccessRecord) (hk : k ≠ "patientDoctorApp")
    (hI1 : stub1.ReadCertAttribute "username" = .ok I)
    (hI2 : stub2.ReadCertAttribute "username" = .ok I)
    (hget1 : stub1.GetState k = .ok raw1) (hget2 : stub2.GetState k = .ok raw2)
    (hdec1 : json.Unmarshal raw1 = some G1) (hdec2 : json.Unmarshal raw2 = some G2)
    (hsame : G1.filter (fun g => decide (g.DoctorID = I)) =
      G2.filter (fun g => decide (g.DoctorID = I))) :
    (MyChaincode.read json stub1 [k]).1 = (MyChaincode.read json stub2 [k]).1 := by
  have hu1 : (MyChaincode.GetCertAttribute stub1 "username").1 = I := by
    simp [MyChaincode.GetCertAttribute, hI1]
  have hu2 : (MyChaincode.GetCertAttribute stub2 "username").1 = I := by
    simp [MyChaincode.GetCertAttribute, hI2]
  by_cases hm : ∃ g ∈ G1, g.DoctorID = I
  · have hm2 : ∃ g ∈ G2, g.DoctorID = I := by
      rw [exists_grant_iff_filter] at hm ⊢
      rwa [← hsame]
    rw [MyChaincode.read_match_panics json stub1 k raw1 G1 hk hget1 hdec1 (hu1 ▸ hm),
      MyChaincode.read_match_panics json stub2 k raw2 G2 hk hget2 hdec2 (hu2 ▸ hm2)]
  · have hn2 : ¬ ∃ g ∈ G2, g.DoctorID = I := by
      rw [exists_grant_iff_filter] at hm ⊢
      rwa [← hsame]
    have hno1 : ∀ g ∈ G1, g.DoctorID ≠ (MyChaincode.GetCertAttribute stub1 "username").1 :=
      fun g hg e => hm ⟨g, hg, e.trans hu1⟩
    have hno2 : ∀ g ∈ G2, g.DoctorID ≠ (MyChaincode.GetCertAttribute stub2 "username").1 :=
      fun g hg e => hn2 ⟨g, hg, e.trans hu2⟩
    rw [MyChaincode.read_no_match_denied json stub1 k raw1 G1 hk hget1 hdec1 hno1,
      MyChaincode.read_no_match_denied json stub2 k raw2 G2 hk hget2 hdec2 hno2]

/-- Claim C1. In `src/myChaincode.go`, for every key `k` other than the system key and
every caller whose username resolves to `I`, no read returns a grant addressed to a
different doctor. First, whenever `read([k])` returns a success result, that result is the
encoding of a list of grants each of which has `doctorId` equal to `I` and occurs in the
grant list stored under `k`. Second, the result of `read([k])`, success or not, depends on
the stored grant list only through the grants addressed to `I`: over a second store whose
list under `k` has the same grants addressed to `I`, in the same order, and any other
grants for other doctors, the caller `I` gets the same result. -/
theorem read_only_own_grants (json : JsonCodec) (stub1 stub2 : Stub)
    (k I raw1 raw2 : String) (G1 G2 : List AccessRecord) (hk : k ≠ "patientDoctorApp")
    (hI1 : stub1.ReadCertAttribute "username" = .ok I)
    (hI2 : stub2.ReadCertAttribute "username" = .ok I)
    (hget1 : stub1.GetState k = .ok raw1) (hget2 : stub2.GetState k = .ok raw2)
    (hdec1 : json.Unmarshal raw1 = some G1) (hdec2 : json.Unmarshal raw2 = some G2)
    (hsame : G1.filter (fun g => decide (g.DoctorID = I)) =
      G2.filter (fun g => decide (g.DoctorID = I))) :
    OwnGrantsOnly json stub1 k I (MyChaincode.read json stub1 [k]).1 ∧
    (MyChaincode.read json stub1 [k]).1 = (MyChaincode.read json stub2 [k]).1 :=
  ⟨MyChaincode.read_success_own_grants json stub1 k I hk hI1,
   MyChaincode.read_same_on_own_grants json stub1 stub2 k I raw1 raw2 G1 G2 hk hI1 hI2
     hget1 hget2 hdec1 hdec2 hsame⟩

/-- Claim C1 at the scenario: the store with the grant of `doc1` under `patient42` and the
store with the empty list there hold the same grants for `doc2`, none, and `doc2` gets the
same result from both; they differ in a grant for `doc1`, and `doc1` gets different
results. -/
theorem read_only_own_grants_witness :
    (MyChaincode.read scenarioCodec (stubOf patient42State (certOf "doc2" "Doctor"))
        ["patient42"]).1 =
      (MyChaincode.read scenarioCodec (stubOf noGrantsState (certOf "doc2" "Doctor"))
        ["patient42"]).1 ∧
    (MyChaincode.read scenarioCodec (stubOf patient42State (certOf "doc1" "Doctor"))
        ["patient42"]).1 ≠
      (MyChaincode.read scenarioCodec (stubOf noGrantsState (certOf "doc1" "Doctor"))
        ["patient42"]).1 :=
  ⟨(read_only_own_grants scenarioCodec (stubOf patient42State (certOf "doc2" "Doctor"))
      (stubOf noGrantsState (certOf "doc2" "Doctor")) "patient42" "doc2" grantDoc1Json "[]"
      [grantDoc1] [] (by decide) rfl rfl rfl rfl (by decide) (by decide) (by decide)).2,
   by decide⟩

/-- Claim C2, at its own witness: with the one-grant list of `doc1` stored under
`patient42`, `read(["patient42"])` by the caller `doc1` does not return that grant: the
copy of the matching grant into the empty result list panics. -/
theorem read_scenario_grant_panics :
    (stubOf patient42State (certOf "doc1" "Doctor")).GetState "patient42" = .ok grantDoc1Json ∧
    scenarioCodec.Unmarshal grantDoc1Json = some [grantDoc1] ∧
    scenarioCodec.Marshal ([grantDoc1].filter (fun g => g.DoctorID = "doc1"))
      = some grantDoc1Json ∧
    (MyChaincode.read scenarioCodec (stubOf patient42State (certOf "doc1" "Doctor"))
      ["patient42"]).1 = .panicked :=
  ⟨rfl, by decide, by decide, by decide⟩

/-- Claim C3. A write by a disallowed caller never mutates stored state: for every stub
and every two-element argument list, `write` of `src/myChaincode.go` returns the
authorization error and the stub it was given whenever the caller's username is neither
`user_type1_0` nor `user_type1_1`, and `write` of `src/start/chaincode_start.go` does so
whenever the caller's role is not `Patient`. -/
theorem write_disallowed_leaves_store (stub : Stub) (key value : String) :
    (¬ ((MyChaincode.GetCertAttribute stub "username").1 = "user_type1_0"
        ∨ (MyChaincode.GetCertAttribute stub "username").1 = "user_type1_1") →
      MyChaincode.write stub [key, value] =
        (.err ((MyChaincode.GetCertAttribute stub "username").1
          ++ " does not have access to create a patient asset"), stub)) ∧
    ((Start.GetCertAttribute stub "role").1 ≠ "Patient" →
      Start.write stub [key, value] =
        (.err ((Start.GetCertAttribute stub "username").1 ++ " with role "
          ++ (Start.GetCertAttribute stub "role").1
          ++ " does not have access to create a patient asset"), stub)) := by
  constructor
  · intro h
    simp only [MyChaincode.write, h, if_false]
  · intro h
    simp only [Start.write, h, if_false]

/-- Claim C3 at its scenario: `write("patient42", v)` by a caller with role `Doctor`
fails in both deployments and leaves `patient42` unset. -/
theorem write_disallowed_leaves_store_witness :
    (MyChaincode.write (stubOf emptyState (certOf "doc2" "Doctor")) ["patient42", "v"] =
      (.err "doc2 does not have access to create a patient asset",
        stubOf emptyState (certOf "doc2" "Doctor"))) ∧
    (Start.write (stubOf emptyState (certOf "doc2" "Doctor")) ["patient42", "v"] =
      (.err "doc2 with role Doctor does not have access to create a patient asset",
        stubOf emptyState (certOf "doc2" "Doctor"))) ∧
    (stubOf emptyState (certOf "doc2" "Doctor")).state "patient42" = none :=
  ⟨(write_disallowed_leaves_store (stubOf emptyState (certOf "doc2" "Doctor"))
      "patient42" "v").1 (by decide),
   (write_disallowed_leaves_store (stubOf emptyState (certOf "doc2" "Doctor"))
      "patient42" "v").2 (by decide), rfl⟩

/-- Claim C4. In `src/myChaincode.go`, for every key `k` other than the system key whose
stored bytes decode to a grant list `G`, and every caller none of whose grants in `G`
carries the caller's username (`G` empty included): `read([k])` fails with the
access-denied error naming `k`, and so returns no success result. -/
theorem read_no_grant_access_denied (json : JsonCodec) (stub : Stub) (k raw : String)
    (G : List AccessRecord) (hk : k ≠ "patientDoctorApp") (hget : stub.GetState k = .ok raw)
    (hdec : json.Unmarshal raw = some G)
    (hno : ∀ g ∈ G, g.DoctorID ≠ (MyChaincode.GetCertAttribute stub "username").1) :
    MyChaincode.read json stub [k] =
        (.err ("\x7b\"Error\":\"" ++ ("You dont have access to any EMR of Patient " ++ k)
          ++ "\"\x7d"), stub) ∧
      ∀ b, (MyChaincode.read json stub [k]).1 ≠ .ok b := by
  have h := MyChaincode.read_no_match_denied json stub k raw G hk hget hdec hno
  have e : "\x7b\"Error\":\"" ++ ("You dont have access to any EMR of Patient " ++ k)
      ++ "\"\x7d" = "\x7b\"Error\":\"You dont have access to any EMR of Patient " ++ k
        ++ "\"\x7d" := by
    rw [← String.append_assoc]
    rfl
  rw [e, h]
  exact ⟨rfl, fun b hb => by cases hb⟩

/-- Claim C4 at the scenario store, read by `doc2`. -/
theorem read_no_grant_access_denied_witness :
    MyChaincode.read scenarioCodec (stubOf patient42State (certOf "doc2" "Doctor"))
        ["patient42"] =
      (.err "\x7b\"Error\":\"You dont have access to any EMR of Patient patient42\"\x7d",
        stubOf patient42State (certOf "doc2" "Doctor")) :=
  (read_no_grant_access_denied scenarioCodec (stubOf patient42State (certOf "doc2" "Doctor"))
    "patient42" grantDoc1Json [grantDoc1] (by decide) rfl (by decide) (by decide)).1

/-- Claim C5. A write by an allowed caller is a full replace of exactly one key. For
every stub and argument list `[key, value]`, when the caller is allowed (username
`user_type1_0` or `user_type1_1` in `src/myChaincode.go`, role `Patient` in
`src/start/chaincode_start.go`): if the runtime's put succeeds, `write` returns success
and the stub the put produced, whose state maps `key` to `value`, whatever was stored
before, and agrees with the old state on every other key; if the put fails, `write`
returns the put's error. -/
theorem write_allowed_replaces_key (stub : Stub) (key value : String) :
    (((MyChaincode.GetCertAttribute stub "username").1 = "user_type1_0"
        ∨ (MyChaincode.GetCertAttribute stub "username").1 = "user_type1_1") →
      (∀ stub1, stub.PutState key value = .ok stub1 →
        MyChaincode.write stub [key, value] = (.ok "", stub1) ∧
        stub1.state key = some value ∧ ∀ k, k ≠ key → stub1.state k = stub.state k) ∧
      (∀ e, stub.PutState key value = .error e →
        MyChaincode.write stub [key, value] = (.err e, stub))) ∧
    ((Start.GetCertAttribute stub "role").1 = "Patient" →
      (∀ stub1, stub.PutState key value = .ok stub1 →
        Start.write stub [key, value] = (.ok "", stub1) ∧
        stub1.state key = some value ∧ ∀ k, k ≠ key → stub1.state k = stub.state k) ∧
      (∀ e, stub.PutState key value = .error e →
        Start.write stub [key, value] = (.err e, stub))) := by
  have hput : ∀ stub1, stub.PutState key value = .ok stub1 →
      stub1.state key = some value ∧ ∀ k, k ≠ key → stub1.state k = stub.state k := by
    intro stub1 h
    unfold Stub.PutState at h
    split at h
    · cases h
    · cases h
      exact ⟨by simp, fun k hk => by simp [hk]⟩
  refine ⟨fun h => ⟨fun stub1 h1 => ⟨?_, hput stub1 h1⟩, fun e h1 => ?_⟩,
    fun h => ⟨fun stub1 h1 => ⟨?_, hput stub1 h1⟩, fun e h1 => ?_⟩⟩
  · simp only [MyChaincode.write, h, if_true, h1]
  · simp only [MyChaincode.write, h, if_true, h1]
  · simp only [Start.write, h, if_true, h1]
  · simp only [Start.write, h, if_true, h1]

/-- Claim C5 at a concrete input: over a store that already holds a grant list under
`patient42`, an allowed caller's `write(["patient42", "[]"])` succeeds in both
deployments and `patient42` then holds `[]`. -/
theorem write_allowed_replaces_key_witness :
    ((MyChaincode.write (stubOf patient42State (certOf "user_type1_1" "Patient"))
        ["patient42", "[]"]).1 = .ok "" ∧
      (MyChaincode.write (stubOf patient42State (certOf "user_type1_1" "Patient"))
        ["patient42", "[]"]).2.state "patient42" = some "[]") ∧
    ((Start.write (stubOf patient42State (certOf "user_type1_1" "Patient"))
        ["patient42", "[]"]).1 = .ok "" ∧
      (Start.write (stubOf patient42State (certOf "user_type1_1" "Patient"))
        ["patient42", "[]"]).2.state "patient42" = some "[]") := by
  have h := write_allowed_replaces_key (stubOf patient42State (certOf "user_type1_1" "Patient"))
    "patient42" "[]"
  have h1 := (h.1 (by decide)).1 _ rfl
  have h2 := (h.2 (by decide)).1 _ rfl
  refine ⟨⟨?_, ?_⟩, ⟨?_, ?_⟩⟩
  · rw [h1.1]
  · rw [h1.1]; exact h1.2.1
  · rw [h2.1]
  · rw [h2.1]; exact h2.2.1

/-- Claim C6. In `src/myChaincode.go` a read of the system key is never grant-filtered
and does not depend on the caller: whenever the runtime's get of `patientDoctorApp`
succeeds with bytes `b`, `read(["patientDoctorApp"])` returns exactly `b`, and it does so
under every certificate put in place of the caller's, one whose lookups fail included. -/
theorem read_system_key_raw (json : JsonCodec) (stub : Stub) (b : String)
    (h : stub.GetState "patientDoctorApp" = .ok b) :
    MyChaincode.read json stub ["patientDoctorApp"] = (.ok b, stub) ∧
    ∀ attrs : String → Except String String,
      (MyChaincode.read json { stub with attrs := attrs } ["patientDoctorApp"]).1 = .ok b := by
  constructor
  · simp [MyChaincode.read, h]
  · intro attrs
    have h1 : Stub.GetState { stub with attrs := attrs } "patientDoctorApp" = .ok b := h
    simp [MyChaincode.read, h1]

/-- Claim C6 at a concrete input: over a store holding `config` under the system key, a
caller without a certificate and the caller `doc1` both read `config`. -/
theorem read_system_key_raw_witness :
    MyChaincode.read scenarioCodec (stubOf configState noCert) ["patientDoctorApp"] =
      (.ok "config", stubOf configState noCert) ∧
    (MyChaincode.read scenarioCodec
      { stubOf configState noCert with attrs := certOf "doc1" "Doctor" }
      ["patientDoctorApp"]).1 = .ok "config" :=
  ⟨(read_system_key_raw scenarioCodec (stubOf configState noCert) "config" rfl).1,
   (read_system_key_raw scenarioCodec (stubOf configState noCert) "config" rfl).2
     (certOf "doc1" "Doctor")⟩

/-- Claim C7. Init followed by a read of the system key is a round trip: in
`src/myChaincode.go`, if `Init` with the one-element argument list `[v]` succeeds, the
resulting state maps `patientDoctorApp` to `v` and agrees with the old state on every
other key, and `read(["patientDoctorApp"])` on any stub over the resulting state, whatever
its certificate, returns exactly `v` (the get of that read being one that does not
fault). -/
theorem init_read_round_trip (json : JsonCodec) (stub : Stub) (function v b : String)
    (h : (MyChaincode.Init stub function [v]).1 = .ok b) :
    (MyChaincode.Init stub function [v]).2.state "patientDoctorApp" = some v ∧
    (∀ k, k ≠ "patientDoctorApp" →
      (MyChaincode.Init stub function [v]).2.state k = stub.state k) ∧
    ∀ reader : Stub, reader.state = (MyChaincode.Init stub function [v]).2.state →
      reader.getFault "patientDoctorApp" = none →
      MyChaincode.read json reader ["patientDoctorApp"] = (.ok v, reader) := by
  unfold MyChaincode.Init Stub.PutState at h ⊢
  cases hf : stub.putFault "patientDoctorApp" v with
  | some e => simp [hf] at h
  | none =>
    simp only [hf]
    refine ⟨by simp, fun k hk => by simp [hk], fun reader hr hg => ?_⟩
    have hget : reader.GetState "patientDoctorApp" = .ok v := by
      simp [Stub.GetState, hg, hr]
    simp [MyChaincode.read, hget]

/-- Claim C7 at a concrete input: `Init(["config"])` on the empty store, then a read of
the system key by the caller `doc1`. -/
theorem init_read_round_trip_witness :
    (MyChaincode.Init (stubOf emptyState noCert) "init" ["config"]).1 = .ok "" ∧
    MyChaincode.read scenarioCodec
      { (MyChaincode.Init (stubOf emptyState noCert) "init" ["config"]).2 with
        attrs := certOf "doc1" "Doctor" } ["patientDoctorApp"] =
      (.ok "config",
        { (MyChaincode.Init (stubOf emptyState noCert) "init" ["config"]).2 with
          attrs := certOf "doc1" "Doctor" }) :=
  ⟨by decide,
   (init_read_round_trip scenarioCodec (stubOf emptyState noCert) "init" "config" ""
     (by decide)).2.2 _ rfl rfl⟩

/-- Claim C8 as stated fails on the code: in `src/start/chaincode_start.go`, after the
caller `doc_writer` with role `Patient` has written the one-grant list of `doc1` under
`patient42`, the read of `patient42` by the caller `doc2`, for whom the list holds no
grant, succeeds and returns the stored bytes. -/
theorem start_read_unmatched_doctor_succeeds :
    (∀ g ∈ [grantDoc1], g.DoctorID ≠ "doc2") ∧
    (Start.write (stubOf emptyState (certOf "doc_writer" "Patient"))
      ["patient42", grantDoc1Json]).1 = .ok "" ∧
    (Start.read
      { (Start.write (stubOf emptyState (certOf "doc_writer" "Patient"))
          ["patient42", grantDoc1Json]).2 with attrs := certOf "doc2" "Doctor" }
      ["patient42"]).1 = .ok grantDoc1Json :=
  ⟨by decide, by decide, by decide⟩

/-- Claim C8, amended. In `src/start/chaincode_start.go` the read path applies no grant
filter and denies no caller: after a write of `value` under `key` by a caller with role
`Patient` whose put succeeds, `read([key])` on any stub over the resulting state whose
get does not fault, whatever its certificate, succeeds and returns exactly `value`. -/
theorem start_read_after_write_raw (stub stub1 : Stub) (key value : String)
    (hrole : (Start.GetCertAttribute stub "role").1 = "Patient")
    (hput : stub.PutState key value = .ok stub1) :
    Start.write stub [key, value] = (.ok "", stub1) ∧
    ∀ reader : Stub, reader.state = stub1.state → reader.getFault key = none →
      Start.read reader [key] = (.ok value, reader) := by
  constructor
  · simp only [Start.write, hrole, if_true, hput]
  · intro reader hr hg
    have hs : stub1.state key = some value := by
      unfold Stub.PutState at hput
      split at hput
      · cases hput
      · cases hput
        simp
    have hget : reader.GetState key = .ok value := by
      simp [Stub.GetState, hg, hr, hs]
    simp [Start.read, hget]

/-- Claim C8, amended, at the scenario: the grant list of `doc1` written under
`patient42` by a caller with role `Patient` is read back in full by `doc2`. -/
theorem start_read_after_write_raw_witness :
    (Start.GetCertAttribute (stubOf emptyState (certOf "doc_writer" "Patient")) "role").1
      = "Patient" ∧
    Start.read
      { (stubOf (fun k => if k = "patient42" then some grantDoc1Json else emptyState k)
          (certOf "doc_writer" "Patient")) with attrs := certOf "doc2" "Doctor" }
      ["patient42"] =
      (.ok grantDoc1Json,
        { (stubOf (fun k => if k = "patient42" then some grantDoc1Json else emptyState k)
          (certOf "doc_writer" "Patient")) with attrs := certOf "doc2" "Doctor" }) :=
  ⟨by decide,
   (start_read_after_write_raw (stubOf emptyState (certOf "doc_writer" "Patient"))
     (stubOf (fun k => if k = "patient42" then some grantDoc1Json else emptyState k)
       (certOf "doc_writer" "Patient"))
     "patient42" grantDoc1Json (by decide) rfl).2 _ rfl rfl⟩

/-- Claim C9 as stated fails on the code: for a caller whose every certificate lookup
fails, `GetCertAttribute` produces the identity-resolution error, yet `write` returns
the authorization error for the empty username (with the empty role in the role-based
deployment), not that error, and `read` of a patient key goes on to the filtering
decision and returns the access-denied error. -/
theorem cert_failure_not_surfaced :
    MyChaincode.GetCertAttribute (stubOf patient42State noCert) "username" =
      ("", some "Couldn't get attribute username. Error: no certificate") ∧
    (MyChaincode.write (stubOf patient42State noCert) ["patient42", "[]"]).1 =
      .err " does not have access to create a patient asset" ∧
    (MyChaincode.read scenarioCodec (stubOf patient42State noCert) ["patient42"]).1 =
      .err "\x7b\"Error\":\"You dont have access to any EMR of Patient patient42\"\x7d" ∧
    Start.GetCertAttribute (stubOf patient42State noCert) "role" =
      ("", some "Couldn't get attribute role. Error: no certificate") ∧
    (Start.write (stubOf patient42State noCert) ["patient42", "[]"]).1 =
      .err " with role  does not have access to create a patient asset" :=
  ⟨by decide, by decide, by decide, by decide, by decide⟩

/-- The username (or role) the handlers of `src/myChaincode.go` go on with is the same
under a certificate whose failing attributes are present and empty. -/
theorem MyChaincode.GetCertAttribute_blank (stub : Stub) (name : String) :
    (MyChaincode.GetCertAttribute { stub with attrs := blankCert stub.attrs } name).1 =
      (MyChaincode.GetCertAttribute stub name).1 := by
  simp only [MyChaincode.GetCertAttribute, Stub.ReadCertAttribute, blankCert]
  cases stub.attrs name <;> rfl

/-- The same for `src/start/chaincode_start.go`. -/
theorem Start.GetCertAttribute_blankCert (stub : Stub) (name : String) :
    (Start.GetCertAttribute { stub with attrs := blankCert stub.attrs } name).1 =
      (Start.GetCertAttribute stub name).1 := by
  simp only [Start.GetCertAttribute, Stub.ReadCertAttribute, blankCert]
  cases stub.attrs name <;> rfl

/-- Claim C9, amended. A credential-lookup failure is not surfaced. `GetCertAttribute`
produces the empty string together with the identity-resolution error embedding the
attribute name and the cause, but `write` and `read` discard that error and go on with
the empty string: each returns, and stores, what it does for a caller whose failing
attributes are present and empty. With a failing `username` lookup `write` of
`src/myChaincode.go` returns the authorization error for the empty username and the stub
unchanged; with a failing `role` lookup `write` of `src/start/chaincode_start.go` returns
the authorization error with the empty role and the stub unchanged. -/
theorem cert_failure_continues_with_empty_identity (json : JsonCodec) (stub : Stub)
    (args : List String) :
    (∀ name e, stub.ReadCertAttribute name = .error e →
      MyChaincode.GetCertAttribute stub name =
          ("", some ("Couldn't get attribute " ++ name ++ ". Error: " ++ e)) ∧
        Start.GetCertAttribute stub name =
          ("", some ("Couldn't get attribute " ++ name ++ ". Error: " ++ e))) ∧
    ((MyChaincode.write stub args).1 =
        (MyChaincode.write { stub with attrs := blankCert stub.attrs } args).1 ∧
      (MyChaincode.write stub args).2.state =
        (MyChaincode.write { stub with attrs := blankCert stub.attrs } args).2.state) ∧
    (MyChaincode.read json stub args).1 =
      (MyChaincode.read json { stub with attrs := blankCert stub.attrs } args).1 ∧
    ((Start.write stub args).1 =
        (Start.write { stub with attrs := blankCert stub.attrs } args).1 ∧
      (Start.write stub args).2.state =
        (Start.write { stub with attrs := blankCert stub.attrs } args).2.state) ∧
    (∀ e key value, stub.ReadCertAttribute "username" = .error e →
      MyChaincode.write stub [key, value] =
        (.err ("" ++ " does not have access to create a patient asset"), stub)) ∧
    (∀ e key value, stub.ReadCertAttribute "role" = .error e →
      Start.write stub [key, value] =
        (.err ((Start.GetCertAttribute stub "username").1 ++ " with role " ++ ""
          ++ " does not have access to create a patient asset"), stub)) := by
  refine ⟨?_, ?_, ?_, ?_, ?_, ?_⟩
  · intro name e h
    simp [MyChaincode.GetCertAttribute, Start.GetCertAttribute, h]
  · unfold MyChaincode.write
    split
    · rename_i key value
      simp only [MyChaincode.GetCertAttribute_blank]
      split
      · simp only [Stub.PutState]
        cases stub.putFault key value <;> exact ⟨rfl, rfl⟩
      · exact ⟨rfl, rfl⟩
    · exact ⟨rfl, rfl⟩
  · unfold MyChaincode.read
    split
    · rename_i key
      simp only [MyChaincode.GetCertAttribute_blank]
      have hg : Stub.GetState { stub with attrs := blankCert stub.attrs } key
          = stub.GetState key := rfl
      rw [hg]
      cases stub.GetState key with
      | error e => rfl
      | ok raw =>
        simp only
        split
        · cases json.Unmarshal raw with
          | none => rfl
          | some G =>
            simp only
            cases MyChaincode.rangeLoop (MyChaincode.GetCertAttribute stub "username").1 0 G []
              with
            | none => rfl
            | some L =>
              simp only
              split
              · rfl
              · cases json.Marshal L <;> rfl
        · rfl
    · rfl
  · unfold Start.write
    split
    · rename_i key value
      simp only [Start.GetCertAttribute_blankCert]
      split
      · simp only [Stub.PutState]
        cases stub.putFault key value <;> exact ⟨rfl, rfl⟩
      · exact ⟨rfl, rfl⟩
    · exact ⟨rfl, rfl⟩
  · intro e key value h
    have hu : (MyChaincode.GetCertAttribute stub "username").1 = "" := by
      simp [MyChaincode.GetCertAttribute, h]
    have hn : ¬ (("" : String) = "user_type1_0" ∨ ("" : String) = "user_type1_1") := by decide
    simp only [MyChaincode.write, hu, hn, if_false]
  · intro e key value h
    have hr : (Start.GetCertAttribute stub "role").1 = "" := by
      simp [Start.GetCertAttribute, h]
    have hn : ¬ (("" : String) = "Patient") := by decide
    simp only [Start.write, hr, hn, if_false]

/-- Claim C9, amended, at a concrete input: for the caller without a certificate, `write`
of `src/myChaincode.go` returns the authorization error for the empty username, and
`write` of `src/start/chaincode_start.go` the one for the empty username and role. -/
theorem cert_failure_continues_with_empty_identity_witness :
    MyChaincode.write (stubOf patient42State noCert) ["patient42", "[]"] =
      (.err ("" ++ " does not have access to create a patient asset"),
        stubOf patient42State noCert) ∧
    Start.write (stubOf patient42State noCert) ["patient42", "[]"] =
      (.err ((Start.GetCertAttribute (stubOf patient42State noCert) "username").1
        ++ " with role " ++ "" ++ " does not have access to create a patient asset"),
        stubOf patient42State noCert) :=
  ⟨(cert_failure_continues_with_empty_identity scenarioCodec (stubOf patient42State noCert)
      []).2.2.2.2.1 "no certificate" "patient42" "[]" rfl,
   (cert_failure_continues_with_empty_identity scenarioCodec (stubOf patient42State noCert)
      []).2.2.2.2.2 "no certificate" "patient42" "[]" rfl⟩

/-! ## Reachable world states of `src/myChaincode.go` -/

/-- The method `Init` of `src/myChaincode.go` changes no key but the system key. -/
theorem MyChaincode.Init_state (stub : Stub) (function : String) (args : List String)
    (k : String) (hk : k ≠ "patientDoctorApp") :
    (MyChaincode.Init stub function args).2.state k = stub.state k := by
  rcases args with _ | ⟨a, _ | ⟨b, t⟩⟩
  · rfl
  · simp only [MyChaincode.Init, Stub.PutState]
    cases stub.putFault "patientDoctorApp" a with
    | some e => rfl
    | none => simp [hk]
  · rfl

/-- The method `write` of `src/myChaincode.go` either leaves a key as it was, or it is
the write of an allow-listed caller under that key, which then holds the value
argument. -/
theorem MyChaincode.write_state (stub : Stub) (args : List String) (k : String) :
    (MyChaincode.write stub args).2.state k = stub.state k ∨
    ∃ value, args = [k, value] ∧
      ((MyChaincode.GetCertAttribute stub "username").1 = "user_type1_0"
        ∨ (MyChaincode.GetCertAttribute stub "username").1 = "user_type1_1") ∧
      (MyChaincode.write stub args).2.state k = some value := by
  rcases args with _ | ⟨a, _ | ⟨b, _ | ⟨c, t⟩⟩⟩
  · exact Or.inl rfl
  · exact Or.inl rfl
  · by_cases hallow : (MyChaincode.GetCertAttribute stub "username").1 = "user_type1_0"
        ∨ (MyChaincode.GetCertAttribute stub "username").1 = "user_type1_1"
    · have hw : MyChaincode.write stub [a, b] =
          (match stub.PutState a b with
            | .error e => (.err e, stub)
            | .ok stub1 => (.ok "", stub1)) := by
        simp only [MyChaincode.write, hallow, if_true]
      rw [hw]
      simp only [Stub.PutState]
      cases stub.putFault a b with
      | some e => exact Or.inl rfl
      | none =>
        by_cases hka : k = a
        · subst hka
          exact Or.inr ⟨b, rfl, hallow, by simp⟩
        · exact Or.inl (by simp [hka])
    · have hw : MyChaincode.write stub [a, b] =
          (.err ((MyChaincode.GetCertAttribute stub "username").1
            ++ " does not have access to create a patient asset"), stub) := by
        simp only [MyChaincode.write, hallow, if_false]
      rw [hw]
      exact Or.inl rfl
  · exact Or.inl rfl

/-- A call that is not a `write` by an allow-listed caller of an undecodable value under
a key other than the system key keeps the stored-shape invariant. -/
theorem applyCall_storedShape (json : JsonCodec) (state : String → Option String) (c : Call)
    (hs : StoredShape json state) (hc : c.decodableWrite json = true) :
    StoredShape json (applyCall state c) := by
  intro k hk b hb
  unfold applyCall MyChaincode.Invoke at hb
  split at hb
  · rw [MyChaincode.Init_state _ _ _ k hk] at hb
    exact hs k hk b hb
  · split at hb
    · rename_i hfn
      rcases MyChaincode.write_state
        { state := state, getFault := c.getFault, putFault := c.putFault, attrs := c.attrs }
        c.args k with h1 | ⟨value, hargs, hallow, hv⟩
      · rw [h1] at hb
        exact hs k hk b hb
      · rw [hv] at hb
        cases hb
        have hal : c.allowed = true := by
          simp only [MyChaincode.GetCertAttribute, Stub.ReadCertAttribute] at hallow
          unfold Call.allowed
          cases hat : c.attrs "username" with
          | error e =>
            simp only [hat] at hallow
            exact absurd hallow (by decide)
          | ok u =>
            simp only [hat] at hallow
            simpa using hallow
        simpa [Call.decodableWrite, hargs, hfn, hal, hk] using hc
    · exact hs k hk b hb

/-- The invariant is kept along a sequence of such calls. -/
theorem runCalls_storedShape (json : JsonCodec) (calls : List Call) :
    ∀ state : String → Option String, StoredShape json state →
      (∀ c ∈ calls, c.decodableWrite json = true) → StoredShape json (runCalls state calls) := by
  induction calls with
  | nil => intro state hs _; exact hs
  | cons c rest ih =>
    intro state hs hc
    have h1 := applyCall_storedShape json state c hs (hc c (List.mem_cons_self _ _))
    exact ih (applyCall state c) h1 (fun x hx => hc x (List.mem_cons_of_mem _ hx))

/-- Claim C10 as stated fails on the code: from the empty store, the single call
`Invoke("write", ["patient42", v])` by the allow-listed caller `user_type1_0`, with `v` a
lone opening brace, is accepted and leaves under `patient42` a value the read path cannot
decode. -/
theorem write_persists_undecodable_value :
    runCalls emptyState [truncatedWrite] "patient42" = some "\x7b" ∧
    scenarioCodec.Unmarshal "\x7b" = none ∧
    ¬ StoredShape scenarioCodec (runCalls emptyState [truncatedWrite]) := by
  refine ⟨by decide, by decide, fun h => ?_⟩
  have h1 := h "patient42" (by decide) "\x7b" (by decide)
  exact absurd h1 (by decide)

/-- Claim C10, amended. `write` stores the value as given, without decoding it; so in
every state reachable from the empty store by a sequence of `Invoke` calls in which every
`write` by an allow-listed caller under a key other than the system key carries a value
that decodes to a grant list, the value stored under every key other than the system key
decodes to a grant list. -/
theorem stored_shape_of_decodable_writes (json : JsonCodec) (calls : List Call)
    (h : ∀ c ∈ calls, c.decodableWrite json = true) :
    StoredShape json (runCalls emptyState calls) :=
  runCalls_storedShape json calls emptyState (fun _ _ b hb => by cases hb) h

/-- Claim C10, amended, at a concrete input: after the scenario write, `patient42` holds
the JSON text of the scenario grant list, which decodes. -/
theorem stored_shape_of_decodable_writes_witness :
    (∀ c ∈ [scenarioWrite], c.decodableWrite scenarioCodec = true) ∧
    runCalls emptyState [scenarioWrite] "patient42" = some grantDoc1Json ∧
    StoredShape scenarioCodec (runCalls emptyState [scenarioWrite]) :=
  ⟨by decide, by decide,
   stored_shape_of_decodable_writes scenarioCodec [scenarioWrite] (by decide)⟩

/-! ## The system key of `src/myChaincode.go` along a sequence of transactions -/

/-- The allow-list test of `MyChaincode.write`, on the stub of a call, is `Call.allowed`. -/
theorem Call.allowed_iff (c : Call) (state : String → Option String) :
    c.allowed = true ↔
      ((MyChaincode.GetCertAttribute
          { state := state, getFault := c.getFault, putFault := c.putFault, attrs := c.attrs }
          "username").1 = "user_type1_0"
        ∨ (MyChaincode.GetCertAttribute
          { state := state, getFault := c.getFault, putFault := c.putFault, attrs := c.attrs }
          "username").1 = "user_type1_1") := by
  simp only [MyChaincode.GetCertAttribute, Stub.ReadCertAttribute, Call.allowed]
  cases c.attrs "username" with
  | error e => simp
  | ok u => simp

/-- What `Init` of `src/myChaincode.go` does to the system key. -/
theorem MyChaincode.Init_systemKey (stub : Stub) (function : String) (args : List String) :
    (MyChaincode.Init stub function args).2.state "patientDoctorApp" =
      (match args with
        | [x] => if (stub.putFault "patientDoctorApp" x).isNone then some x
                 else stub.state "patientDoctorApp"
        | _ => stub.state "patientDoctorApp") := by
  rcases args with _ | ⟨a, _ | ⟨b, t⟩⟩
  · rfl
  · simp only [MyChaincode.Init, Stub.PutState]
    rcases Option.eq_none_or_eq_some (stub.putFault "patientDoctorApp" a) with hp | ⟨e, hp⟩
    · simp [hp]
    · simp [hp]
  · rfl

/-- What `write` of `src/myChaincode.go` does to the system key. -/
theorem MyChaincode.write_systemKey (stub : Stub) (args : List String) :
    (MyChaincode.write stub args).2.state "patientDoctorApp" =
      (match args with
        | [key, x] =>
          if key = "patientDoctorApp" ∧
              ((MyChaincode.GetCertAttribute stub "username").1 = "user_type1_0"
                ∨ (MyChaincode.GetCertAttribute stub "username").1 = "user_type1_1") ∧
              (stub.putFault key x).isNone then some x
          else stub.state "patientDoctorApp"
        | _ => stub.state "patientDoctorApp") := by
  rcases MyChaincode.write_state stub args "patientDoctorApp" with h | ⟨value, hargs, hallow, hv⟩
  · rw [h]
    rcases args with _ | ⟨a, _ | ⟨b, _ | ⟨d, t⟩⟩⟩
    · rfl
    · rfl
    · simp only
      split
      · rename_i hc
        obtain ⟨hk, hal, hp⟩ := hc
        subst hk
        have hp2 : stub.putFault "patientDoctorApp" b = none := by simpa using hp
        simp [MyChaincode.write, hal, Stub.PutState, hp2] at h
        exact h.symm
      · rfl
    · rfl
  · subst hargs
    rw [hv]
    simp only
    split
    · rfl
    · rename_i hc
      have hp : stub.putFault "patientDoctorApp" value ≠ none := by
        intro hp
        exact hc ⟨trivial, hallow, by simp [hp]⟩
      obtain ⟨e, he⟩ := Option.ne_none_iff_exists'.mp hp
      simp [MyChaincode.write, hallow, Stub.PutState, he] at hv
      exact hv.symm

/-- What one `Invoke` does to the system key: it holds the value `Call.systemKeyWrite`
names, or what it held before when there is none. -/
theorem applyCall_systemKey (state : String → Option String) (c : Call) :
    applyCall state c "patientDoctorApp" =
      (match c.systemKeyWrite with
        | some x => some x
        | none => state "patientDoctorApp") := by
  have hal := Call.allowed_iff c state
  unfold applyCall MyChaincode.Invoke Call.systemKeyWrite
  by_cases hi : c.function = "init"
  · simp only [hi, if_true]
    rw [MyChaincode.Init_systemKey]
    rcases c.args with _ | ⟨a, _ | ⟨b, t⟩⟩
    · rfl
    · simp only
      split_ifs <;> rfl
    · rfl
  · simp only [hi, if_false]
    by_cases hw : c.function = "write"
    · simp only [hw, if_true]
      rw [MyChaincode.write_systemKey]
      rcases c.args with _ | ⟨a, _ | ⟨b, _ | ⟨d, t⟩⟩⟩
      · rfl
      · rfl
      · simp only [hal]
        split_ifs <;> rfl
      · rfl
    · simp only [hw, if_false]

/-- What one transaction does to the system key. -/
theorem applyTx_systemKey (json : JsonCodec) (state : String → Option String) (t : Tx) :
    applyTx json state t "patientDoctorApp" =
      (match t.systemKeyWrite with
        | some x => some x
        | none => state "patientDoctorApp") := by
  cases t with
  | invoke c => exact applyCall_systemKey state c
  | query c =>
    simp only [applyTx, Tx.systemKeyWrite, MyChaincode.Query]
    split
    · simp only [MyChaincode.read]
      repeat' split
      all_goals rfl
    · rfl

/-- Transactions none of which puts a value under the system key leave it as it was. -/
theorem runTxs_systemKey (json : JsonCodec) (txs : List Tx) :
    ∀ state : String → Option String, (∀ t ∈ txs, t.systemKeyWrite = none) →
      runTxs json state txs "patientDoctorApp" = state "patientDoctorApp" := by
  induction txs with
  | nil => intro state _; rfl
  | cons t rest ih =>
    intro state h
    have h1 := applyTx_systemKey json state t
    rw [h t (List.mem_cons_self _ _)] at h1
    have h2 := ih (applyTx json state t) (fun x hx => h x (List.mem_cons_of_mem _ hx))
    simp only [runTxs, List.foldl_cons] at h2 ⊢
    rw [h2]
    exact h1

/-- Claim C11 as stated fails on the code: after `Init(["config"])` has stored `config`
under the system key, an `Invoke("write", ["patientDoctorApp", "x"])` by the allow-listed
caller `user_type1_0` leaves `x` there, and so does a repeated `Invoke("init", ["y"])`
with `y`. -/
theorem system_key_overwritten_after_init :
    runTxs scenarioCodec emptyState
      [.invoke (callBy noCert "init" ["config"])] "patientDoctorApp" = some "config" ∧
    runTxs scenarioCodec emptyState
      [.invoke (callBy noCert "init" ["config"]),
       .invoke (callBy (certOf "user_type1_0" "Patient") "write" ["patientDoctorApp", "x"])]
      "patientDoctorApp" = some "x" ∧
    runTxs scenarioCodec emptyState
      [.invoke (callBy noCert "init" ["config"]),
       .invoke (callBy noCert "init" ["y"])] "patientDoctorApp" = some "y" :=
  ⟨by decide, by decide, by decide⟩

/-- Claim C11, amended. In `src/myChaincode.go` the value under the system key is
replaced by an `Invoke("init", [x])` and by an `Invoke("write", ["patientDoctorApp", x])`
of an allow-listed caller, each leaving `x` there when the runtime's put succeeds, and by
nothing else: every other `Invoke` and every `Query` leaves that value as it was, and so
does any sequence of such transactions. -/
theorem system_key_replaced_only_by_init_or_allowed_write (json : JsonCodec)
    (state : String → Option String) :
    (∀ t : Tx, applyTx json state t "patientDoctorApp" =
      (match t.systemKeyWrite with
        | some x => some x
        | none => state "patientDoctorApp")) ∧
    (∀ txs : List Tx, (∀ t ∈ txs, t.systemKeyWrite = none) →
      runTxs json state txs "patientDoctorApp" = state "patientDoctorApp") :=
  ⟨fun t => applyTx_systemKey json state t, fun txs h => runTxs_systemKey json txs state h⟩

/-- Claim C11, amended, at a concrete input: with `config` under the system key, a read
of it, a write under it by the caller `doc2`, who is not on the allow-list, a write under
`patient42` by the allow-listed `user_type1_0` and an unknown function leave `config`
there. -/
theorem system_key_replaced_only_by_init_or_allowed_write_witness :
    runTxs scenarioCodec configState
      [.query (callBy (certOf "doc2" "Doctor") "read" ["patientDoctorApp"]),
       .invoke (callBy (certOf "doc2" "Doctor") "write" ["patientDoctorApp", "x"]),
       .invoke (callBy (certOf "user_type1_0" "Patient") "write" ["patient42", "[]"]),
       .invoke (callBy (certOf "user_type1_0" "Patient") "delete" ["patientDoctorApp"])]
      "patientDoctorApp" = some "config" :=
  (system_key_replaced_only_by_init_or_allowed_write scenarioCodec configState).2 _
    (by decide)

/-- Claim C12 as stated fails on the code: when the runtime's get fails with the message
`ledger unavailable`, `read` of either deployment fails with the message
`Failed to get state for patient42` wrapped as a JSON object, the same as when the get
fails with `connection reset`; the message of the store error is in neither. -/
theorem read_get_failure_drops_store_message :
    (MyChaincode.read scenarioCodec (getFailingStub "ledger unavailable") ["patient42"]).1 =
      .err "\x7b\"Error\":\"Failed to get state for patient42\"\x7d" ∧
    (MyChaincode.read scenarioCodec (getFailingStub "connection reset") ["patient42"]).1 =
      .err "\x7b\"Error\":\"Failed to get state for patient42\"\x7d" ∧
    (Start.read (getFailingStub "ledger unavailable") ["patient42"]).1 =
      .err "\x7b\"Error\":\"Failed to get state for patient42\"\x7d" ∧
    (Start.read (getFailingStub "connection reset") ["patient42"]).1 =
      .err "\x7b\"Error\":\"Failed to get state for patient42\"\x7d" :=
  ⟨by decide, by decide, by decide, by decide⟩

/-- Claim C12, amended. When the runtime's get fails during `read([key])`, `read` of
either deployment fails with no further processing: it returns the stub unchanged and the
error whose message is `Failed to get state for` followed by the key, wrapped as a JSON
object, whatever the message of the store error, the codec and the caller's
certificate. -/
theorem read_get_failure_fixed_message (json : JsonCodec) (stub : Stub) (key e : String)
    (h : stub.GetState key = .error e) :
    MyChaincode.read json stub [key] =
      (.err ("\x7b\"Error\":\"Failed to get state for " ++ key ++ "\"\x7d"), stub) ∧
    Start.read stub [key] =
      (.err ("\x7b\"Error\":\"Failed to get state for " ++ key ++ "\"\x7d"), stub) ∧
    ∀ (json1 : JsonCodec) (attrs : String → Except String String),
      (MyChaincode.read json1 { stub with attrs := attrs } [key]).1 =
        .err ("\x7b\"Error\":\"Failed to get state for " ++ key ++ "\"\x7d") ∧
      (Start.read { stub with attrs := attrs } [key]).1 =
        .err ("\x7b\"Error\":\"Failed to get state for " ++ key ++ "\"\x7d") := by
  refine ⟨by simp [MyChaincode.read, h], by simp [Start.read, h], fun json1 attrs => ?_⟩
  have h1 : Stub.GetState { stub with attrs := attrs } key = .error e := h
  exact ⟨by simp [MyChaincode.read, h1], by simp [Start.read, h1]⟩

/-- Claim C12, amended, at a concrete input: the get of `patient42` fails with
`ledger unavailable`. -/
theorem read_get_failure_fixed_message_witness :
    MyChaincode.read scenarioCodec (getFailingStub "ledger unavailable") ["patient42"] =
      (.err ("\x7b\"Error\":\"Failed to get state for " ++ "patient42" ++ "\"\x7d"),
        getFailingStub "ledger unavailable") :=
  (read_get_failure_fixed_message scenarioCodec (getFailingStub "ledger unavailable")
    "patient42" "ledger unavailable" rfl).1

/-- Claim C13. Arity is validated before anything else: for every argument list and
every stub, so every caller and store, `Init` returns its argument-count error when the
count is not 1, `write` when it is not 2 and `read` when it is not 1, each with the stub
unchanged; the result does not mention the certificate, so a wrong-arity `write` by a
disallowed caller reports the arity error. Stated for both deployments. -/
theorem arity_checked_first (json : JsonCodec) (stub : Stub) (function : String)
    (args : List String) :
    (args.length ≠ 1 →
      MyChaincode.Init stub function args =
        (.err "Incorrect number of arguments. Expecting 1", stub) ∧
      Start.Init stub function args =
        (.err "Incorrect number of arguments. Expecting 1", stub)) ∧
    (args.length ≠ 2 →
      MyChaincode.write stub args =
        (.err "Incorrect number of arguments. Expecting 2. name of the key and value to set",
          stub) ∧
      Start.write stub args =
        (.err "Incorrect number of arguments. Expecting 2. name of the key and value to set",
          stub)) ∧
    (args.length ≠ 1 →
      MyChaincode.read json stub args =
        (.err "Incorrect number of arguments. Expecting patientID", stub) ∧
      Start.read stub args =
        (.err "Incorrect number of arguments. Expecting name of the key to query", stub)) := by
  refine ⟨fun h => ?_, fun h => ?_, fun h => ?_⟩
  · rcases args with _ | ⟨a, _ | ⟨b, t⟩⟩
    · exact ⟨rfl, rfl⟩
    · exact absurd rfl h
    · exact ⟨rfl, rfl⟩
  · rcases args with _ | ⟨a, _ | ⟨b, _ | ⟨d, t⟩⟩⟩
    · exact ⟨rfl, rfl⟩
    · exact ⟨rfl, rfl⟩
    · exact absurd rfl h
    · exact ⟨rfl, rfl⟩
  · rcases args with _ | ⟨a, _ | ⟨b, t⟩⟩
    · exact ⟨rfl, rfl⟩
    · exact absurd rfl h
    · exact ⟨rfl, rfl⟩

/-- Claim C13 at a concrete input: a one-argument `write` by the caller `doc2`, who is
not allowed to write, reports the arity error in both deployments. -/
theorem arity_checked_first_witness :
    MyChaincode.write (stubOf emptyState (certOf "doc2" "Doctor")) ["patient42"] =
      (.err "Incorrect number of arguments. Expecting 2. name of the key and value to set",
        stubOf emptyState (certOf "doc2" "Doctor")) ∧
    Start.write (stubOf emptyState (certOf "doc2" "Doctor")) ["patient42"] =
      (.err "Incorrect number of arguments. Expecting 2. name of the key and value to set",
        stubOf emptyState (certOf "doc2" "Doctor")) :=
  (arity_checked_first scenarioCodec (stubOf emptyState (certOf "doc2" "Doctor")) "write"
    ["patient42"]).2.1 (by decide)

/-- Claim C14. Unknown operations are rejected by name: for a function name other than
`init` and `write`, `Invoke` returns the error `Received unknown function invocation: `
followed by the name, and for a name other than `read`, `Query` returns
`Received unknown function query: ` followed by the name, both with the stub unchanged
and for every argument list and caller. `Invoke` hands `init` to `Init` and `write` to
`write`, `Query` hands `read` to `read`, and each returns the handler's result. Stated
for both deployments. -/
theorem unknown_function_rejected_by_name (json : JsonCodec) (stub : Stub) (f : String)
    (args : List String) :
    (f ≠ "init" → f ≠ "write" →
      MyChaincode.Invoke stub f args =
        (.err ("Received unknown function invocation: " ++ f), stub) ∧
      Start.Invoke stub f args =
        (.err ("Received unknown function invocation: " ++ f), stub)) ∧
    (f ≠ "read" →
      MyChaincode.Query json stub f args =
        (.err ("Received unknown function query: " ++ f), stub) ∧
      Start.Query stub f args = (.err ("Received unknown function query: " ++ f), stub)) ∧
    (MyChaincode.Invoke stub "init" args = MyChaincode.Init stub "init" args ∧
      MyChaincode.Invoke stub "write" args = MyChaincode.write stub args ∧
      MyChaincode.Query json stub "read" args = MyChaincode.read json stub args) ∧
    (Start.Invoke stub "init" args = Start.Init stub "init" args ∧
      Start.Invoke stub "write" args = Start.write stub args ∧
      Start.Query stub "read" args = Start.read stub args) := by
  refine ⟨fun h1 h2 => ?_, fun h => ?_, ⟨?_, ?_, ?_⟩, ⟨?_, ?_, ?_⟩⟩
  · exact ⟨by simp only [MyChaincode.Invoke, h1, h2, if_false],
      by simp only [Start.Invoke, h1, h2, if_false]⟩
  · exact ⟨by simp only [MyChaincode.Query, h, if_false],
      by simp only [Start.Query, h, if_false]⟩
  · simp only [MyChaincode.Invoke, if_true]
  · have h : ¬ ("write" : String) = "init" := by decide
    simp only [MyChaincode.Invoke, h, if_false, if_true]
  · simp only [MyChaincode.Query, if_true]
  · simp only [Start.Invoke, if_true]
  · have h : ¬ ("write" : String) = "init" := by decide
    simp only [Start.Invoke, h, if_false, if_true]
  · simp only [Start.Query, if_true]

/-- Claim C14 at a concrete input: `Invoke("delete", ...)` and `Query("write", ...)`. -/
theorem unknown_function_rejected_by_name_witness :
    (MyChaincode.Invoke (stubOf configState (certOf "user_type1_0" "Patient")) "delete"
        ["patientDoctorApp"] =
      (.err ("Received unknown function invocation: " ++ "delete"),
        stubOf configState (certOf "user_type1_0" "Patient")) ∧
     Start.Invoke (stubOf configState (certOf "user_type1_0" "Patient")) "delete"
        ["patientDoctorApp"] =
      (.err ("Received unknown function invocation: " ++ "delete"),
        stubOf configState (certOf "user_type1_0" "Patient"))) :=
  (unknown_function_rejected_by_name scenarioCodec
    (stubOf configState (certOf "user_type1_0" "Patient")) "delete"
    ["patientDoctorApp"]).1 (by decide) (by decide)

/-- Claim C15. In both deployments `GetCertAttribute(name)` returns the attribute bytes
as a string with no error exactly when the runtime's `ReadCertAttribute(name)` succeeds,
and otherwise the empty string with the error whose message is
`Couldn't get attribute ` followed by the name, `. Error: ` and the message of the
runtime's error. -/
theorem GetCertAttribute_spec (stub : Stub) (name : String) :
    (∀ attr, stub.ReadCertAttribute name = .ok attr →
      MyChaincode.GetCertAttribute stub name = (attr, none) ∧
      Start.GetCertAttribute stub name = (attr, none)) ∧
    (∀ e, stub.ReadCertAttribute name = .error e →
      MyChaincode.GetCertAttribute stub name =
        ("", some ("Couldn't get attribute " ++ name ++ ". Error: " ++ e)) ∧
      Start.GetCertAttribute stub name =
        ("", some ("Couldn't get attribute " ++ name ++ ". Error: " ++ e))) ∧
    ((MyChaincode.GetCertAttribute stub name).2 = none ↔
      ∃ attr, stub.ReadCertAttribute name = .ok attr) ∧
    ((Start.GetCertAttribute stub name).2 = none ↔
      ∃ attr, stub.ReadCertAttribute name = .ok attr) := by
  refine ⟨fun attr h => ?_, fun e h => ?_, ?_, ?_⟩
  · simp [MyChaincode.GetCertAttribute, Start.GetCertAttribute, h]
  · simp [MyChaincode.GetCertAttribute, Start.GetCertAttribute, h]
  · unfold MyChaincode.GetCertAttribute
    cases h : stub.ReadCertAttribute name with
    | error e => simp
    | ok attr => simp
  · unfold Start.GetCertAttribute
    cases h : stub.ReadCertAttribute name with
    | error e => simp
    | ok attr => simp

/-- Claim C15 at concrete inputs: the caller `doc1`, and a caller without a
certificate. -/
theorem GetCertAttribute_spec_witness :
    (MyChaincode.GetCertAttribute (stubOf emptyState (certOf "doc1" "Doctor")) "username" =
        ("doc1", none) ∧
      Start.GetCertAttribute (stubOf emptyState (certOf "doc1" "Doctor")) "username" =
        ("doc1", none)) ∧
    (MyChaincode.GetCertAttribute (stubOf emptyState noCert) "role" =
        ("", some ("Couldn't get attribute " ++ "role" ++ ". Error: " ++ "no certificate")) ∧
      Start.GetCertAttribute (stubOf emptyState noCert) "role" =
        ("", some ("Couldn't get attribute " ++ "role" ++ ". Error: " ++ "no certificate"))) :=
  ⟨(GetCertAttribute_spec (stubOf emptyState (certOf "doc1" "Doctor")) "username").1
      "doc1" rfl,
   (GetCertAttribute_spec (stubOf emptyState noCert) "role").2.1 "no certificate" rfl⟩

/-- On a key other than the system key, `read` of `src/myChaincode.go` ends in a panic,
the decoded list then holding a grant for the caller's username, or in an error. -/
theorem MyChaincode.read_patient_key_outcome (json : JsonCodec) (stub : Stub) (k : String)
    (hk : k ≠ "patientDoctorApp") :
    ((MyChaincode.read json stub [k]).1 = .panicked ∧
      ∃ raw G, stub.GetState k = .ok raw ∧ json.Unmarshal raw = some G ∧
        ∃ g ∈ G, g.DoctorID = (MyChaincode.GetCertAttribute stub "username").1) ∨
    ∃ m, (MyChaincode.read json stub [k]).1 = .err m := by
  cases hget : stub.GetState k with
  | error e =>
    exact Or.inr ⟨"\x7b\"Error\":\"Failed to get state for " ++ k ++ "\"\x7d",
      by simp [MyChaincode.read, hget]⟩
  | ok raw =>
    cases hdec : json.Unmarshal raw with
    | none =>
      exact Or.inr ⟨"\x7b\"Error\":\"Failed to convert byteArray to accessRecords list.\"\x7d",
        by simp [MyChaincode.read, hget, hk, hdec]⟩
    | some G =>
      by_cases hm : ∃ g ∈ G, g.DoctorID = (MyChaincode.GetCertAttribute stub "username").1
      · left
        rw [MyChaincode.read_match_panics json stub k raw G hk hget hdec hm]
        exact ⟨rfl, raw, G, rfl, hdec, hm⟩
      · right
        have hno : ∀ g ∈ G, g.DoctorID ≠ (MyChaincode.GetCertAttribute stub "username").1 :=
          fun g hg e => hm ⟨g, hg, e⟩
        rw [MyChaincode.read_no_match_denied json stub k raw G hk hget hdec hno]
        exact ⟨_, rfl⟩

/-- Claim C16. The read path of `src/myChaincode.go` copies a matched grant by indexed
assignment at index 0 into a result list of length zero, which is out of bounds. So for
a key other than the system key: when the decoded list holds a grant whose `doctorId` is
the caller's username, `read` panics; `read` never returns a success result, it panics,
and then a grant matches, or it returns an error. For every argument list, a success
result of `read` is a read of the system key. -/
theorem read_patient_key_never_succeeds (json : JsonCodec) (stub : Stub) (k : String)
    (hk : k ≠ "patientDoctorApp") :
    (∀ x, assignIndex [] 0 x = none) ∧
    (∀ raw G, stub.GetState k = .ok raw → json.Unmarshal raw = some G →
      (∃ g ∈ G, g.DoctorID = (MyChaincode.GetCertAttribute stub "username").1) →
      MyChaincode.read json stub [k] = (.panicked, stub)) ∧
    (∀ b, (MyChaincode.read json stub [k]).1 ≠ .ok b) ∧
    (((MyChaincode.read json stub [k]).1 = .panicked ∧
        ∃ raw G, stub.GetState k = .ok raw ∧ json.Unmarshal raw = some G ∧
          ∃ g ∈ G, g.DoctorID = (MyChaincode.GetCertAttribute stub "username").1) ∨
      ∃ m, (MyChaincode.read json stub [k]).1 = .err m) ∧
    (∀ args b, (MyChaincode.read json stub args).1 = .ok b → args = ["patientDoctorApp"]) := by
  refine ⟨fun x => MyChaincode.assignIndex_nil 0 x,
    fun raw G hget hdec hm => MyChaincode.read_match_panics json stub k raw G hk hget hdec hm,
    fun b hb => ?_, MyChaincode.read_patient_key_outcome json stub k hk, fun args b hb => ?_⟩
  · rcases MyChaincode.read_patient_key_outcome json stub k hk with ⟨h, _⟩ | ⟨m, h⟩
    · rw [h] at hb
      cases hb
    · rw [h] at hb
      cases hb
  · rcases args with _ | ⟨a, _ | ⟨c, t⟩⟩
    · simp [MyChaincode.read] at hb
    · by_cases ha : a = "patientDoctorApp"
      · rw [ha]
      · rcases MyChaincode.read_patient_key_outcome json stub a ha with ⟨h, _⟩ | ⟨m, h⟩
        · rw [h] at hb
          cases hb
        · rw [h] at hb
          cases hb
    · simp [MyChaincode.read] at hb

/-- Claim C16 at the scenario store: the read of `patient42` by `doc1`, for whom the
stored list holds a grant, panics. -/
theorem read_patient_key_never_succeeds_witness :
    MyChaincode.read scenarioCodec (stubOf patient42State (certOf "doc1" "Doctor"))
      ["patient42"] = (.panicked, stubOf patient42State (certOf "doc1" "Doctor")) :=
  (read_patient_key_never_succeeds scenarioCodec
    (stubOf patient42State (certOf "doc1" "Doctor")) "patient42" (by decide)).2.1
    grantDoc1Json [grantDoc1] rfl (by decide) (by decide)

/-- Claim C17. In `src/start/chaincode_start.go` the read is identity-independent and
unfiltered for every key: for every stub, every argument list and every certificate put
in place of the caller's, `read` and `Query` return the same result, and when the
runtime's get of `k` succeeds with bytes `b`, `read([k])` returns exactly `b`, the system
key `hello_world` and patient keys alike. -/
theorem start_read_identity_independent (stub : Stub) (f : String) (args : List String)
    (attrs : String → Except String String) :
    (Start.read { stub with attrs := attrs } args).1 = (Start.read stub args).1 ∧
    (Start.Query { stub with attrs := attrs } f args).1 = (Start.Query stub f args).1 ∧
    ∀ k b, stub.GetState k = .ok b → Start.read stub [k] = (.ok b, stub) := by
  have hread : (Start.read { stub with attrs := attrs } args).1 = (Start.read stub args).1 := by
    rcases args with _ | ⟨a, _ | ⟨c, t⟩⟩
    · rfl
    · have hg : Stub.GetState { stub with attrs := attrs } a = stub.GetState a := rfl
      simp only [Start.read, hg]
      cases stub.GetState a <;> rfl
    · rfl
  refine ⟨hread, ?_, fun k b h => by simp [Start.read, h]⟩
  unfold Start.Query
  split
  · exact hread
  · rfl

/-- Claim C17 at the scenario store: `doc2` and a caller without a certificate read the
same bytes under `patient42`. -/
theorem start_read_identity_independent_witness :
    (Start.read { stubOf patient42State (certOf "doc2" "Doctor") with attrs := noCert }
      ["patient42"]).1 = .ok grantDoc1Json ∧
    (Start.read (stubOf patient42State (certOf "doc2" "Doctor")) ["patient42"]).1 =
      .ok grantDoc1Json := by
  have h := start_read_identity_independent (stubOf patient42State (certOf "doc2" "Doctor"))
    "read" ["patient42"] noCert
  have h2 := h.2.2 "patient42" grantDoc1Json rfl
  exact ⟨by rw [h.1, h2], by rw [h2]⟩

/-- Claim C18. Query is read-only in both deployments: for every function name, argument
list and stub, `Query` returns the stub it was given, whether it succeeds, fails, panics
or names an unknown function; `Query("write", ...)` and `Query("init", ...)` are rejected
as unknown. -/
theorem query_leaves_store (json : JsonCodec) (stub : Stub) (f : String)
    (args : List String) :
    (MyChaincode.Query json stub f args).2 = stub ∧
    (Start.Query stub f args).2 = stub ∧
    MyChaincode.Query json stub "write" args =
      (.err "Received unknown function query: write", stub) ∧
    MyChaincode.Query json stub "init" args =
      (.err "Received unknown function query: init", stub) ∧
    Start.Query stub "write" args = (.err "Received unknown function query: write", stub) ∧
    Start.Query stub "init" args = (.err "Received unknown function query: init", stub) := by
  refine ⟨?_, ?_, ?_, ?_, ?_, ?_⟩
  · unfold MyChaincode.Query
    split
    · simp only [MyChaincode.read]
      repeat' split
      all_goals rfl
    · rfl
  · unfold Start.Query
    split
    · simp only [Start.read]
      repeat' split
      all_goals rfl
    · rfl
  · have h : ¬ ("write" : String) = "read" := by decide
    simp only [MyChaincode.Query, h, if_false]
    rfl
  · have h : ¬ ("init" : String) = "read" := by decide
    simp only [MyChaincode.Query, h, if_false]
    rfl
  · have h : ¬ ("write" : String) = "read" := by decide
    simp only [Start.Query, h, if_false]
    rfl
  · have h : ¬ ("init" : String) = "read" := by decide
    simp only [Start.Query, h, if_false]
    rfl

/-- Claim C18 at concrete inputs: a `Query("write", ...)` by an allow-listed caller with
role `Patient` stores nothing under `patient42`, and a `Query("read", ...)` that panics
leaves the scenario store as it was. -/
theorem query_leaves_store_witness :
    (MyChaincode.Query scenarioCodec (stubOf emptyState (certOf "user_type1_0" "Patient"))
      "write" ["patient42", "[]"]).2.state "patient42" = none ∧
    (Start.Query (stubOf emptyState (certOf "user_type1_0" "Patient"))
      "write" ["patient42", "[]"]).2.state "patient42" = none ∧
    (MyChaincode.Query scenarioCodec (stubOf patient42State (certOf "doc1" "Doctor"))
      "read" ["patient42"]).2.state "patient42" = some grantDoc1Json := by
  have h1 := query_leaves_store scenarioCodec (stubOf emptyState (certOf "user_type1_0" "Patient"))
    "write" ["patient42", "[]"]
  have h2 := query_leaves_store scenarioCodec (stubOf patient42State (certOf "doc1" "Doctor"))
    "read" ["patient42"]
  refine ⟨?_, ?_, ?_⟩
  · rw [h1.1]; rfl
  · rw [h1.2.1]; rfl
  · rw [h2.1]; rfl
